import Mathlib

/-!
Verification development for the user-account core of the rental-learning
backend: the TypeORM `User` entity, the `UsersService` business rules
(create, findOne, update, remove), the `CreateUserDto`/`UpdateUserDto`
validation rules, and the `JwtStrategy` token validation contract.

The embedding follows the TypeScript source:
  * `StoredUser` is a row of the `users` table; the `password` column is
    marked `select: false` in the entity, so the default read projection
    (`loadDefault`) yields a `UserEntity` whose `password` field is `none`.
  * `repository.save` on a new entity triggers the `@BeforeInsert()` hook
    `hashPasswordBeforeInsert`; the entity declares no `@BeforeUpdate()`
    hook, so saves of loaded entities write the in-memory field values
    unchanged (TypeORM skips columns whose entity property is undefined,
    modelled as `none`).
  * `bcrypt.hash` with a fresh salt is abstracted as a function parameter
    `hashFn : String → String`; the timestamps written by
    `@CreateDateColumn`/`@UpdateDateColumn` are abstracted as a `now : Nat`
    parameter; the generated uuid as a `genId : String` parameter.
  * JavaScript truthiness of an optional string field (`dto.email && …`)
    is `some e` with `e ≠ ""`.
-/

/-- The `role` enum column of the `users` table:
`enum: ['customer', 'driver', 'manager', 'admin']`. -/
inductive Role
  | customer
  | driver
  | manager
  | admin
deriving DecidableEq, Repr

/-- A persisted row of the `users` table. `password` holds whatever the last
write put into the column (the bcrypt digest on insert). `phoneNumber` is a
nullable column. Timestamps are abstract instants. -/
structure StoredUser where
  id : String
  fullName : String
  email : String
  password : String
  phoneNumber : Option String
  role : Role
  isActive : Bool
  createdAt : Nat
  updatedAt : Nat
deriving DecidableEq, Repr

/-- An in-memory `User` entity instance. `password` is `none` when the
property is undefined on the instance — in particular after a default read,
because the column is declared `select: false`. -/
structure UserEntity where
  id : String
  fullName : String
  email : String
  password : Option String
  phoneNumber : Option String
  role : Role
  isActive : Bool
  createdAt : Nat
  updatedAt : Nat
deriving DecidableEq, Repr

/-- The default read projection of a row: every column except `password`
(`select: false` on the entity column). -/
def loadDefault (u : StoredUser) : UserEntity :=
  { id := u.id
    fullName := u.fullName
    email := u.email
    password := none
    phoneNumber := u.phoneNumber
    role := u.role
    isActive := u.isActive
    createdAt := u.createdAt
    updatedAt := u.updatedAt }

/-- `CreateUserDto`: `fullName`, `email`, `password` required;
`phoneNumber`, `role` optional. -/
structure CreateUserDto where
  fullName : String
  email : String
  password : String
  phoneNumber : Option String := none
  role : Option Role := none
deriving DecidableEq, Repr

/-- `UpdateUserDto = PartialType(CreateUserDto)` plus optional `isActive`:
every field optional; `some v` means the caller sent the field. -/
structure UpdateUserDto where
  fullName : Option String := none
  email : Option String := none
  password : Option String := none
  phoneNumber : Option String := none
  role : Option Role := none
  isActive : Option Bool := none
deriving DecidableEq, Repr

/-- The failures surfaced by `UsersService` calls: the business-rule
exceptions `ConflictException` (HTTP 409) and `NotFoundException`
(HTTP 404) thrown by the service itself, and the `QueryFailedError` thrown
by the database driver when a write violates the unique email index
(`@Column({unique: true})`) — the service never catches it, so it
propagates unhandled. -/
inductive ServiceError
  | conflict (msg : String)
  | notFound (msg : String)
  | queryFailed (msg : String)
deriving DecidableEq, Repr

/-- `@BeforeInsert() hashPasswordBeforeInsert`: if `this.password` is truthy,
replace it with `bcrypt.hash(this.password, salt)`. The entity declares this
hook for insert only; there is no `@BeforeUpdate()` hook. -/
def hashPasswordBeforeInsert (hashFn : String → String) (u : UserEntity) : UserEntity :=
  match u.password with
  | some p => if p = "" then u else { u with password := some (hashFn p) }
  | none => u

/-- `UsersService.create`: reject when `findOne({where: {email}})` finds an
existing user, otherwise build the entity from the DTO (`repository.create`,
with the column defaults `role = customer`, `isActive = true`), run the
`@BeforeInsert()` hook, insert the row, and return the saved entity object.
Returns the result together with the resulting table contents. -/
def UsersService.create (hashFn : String → String) (genId : String) (now : Nat)
    (store : List StoredUser) (dto : CreateUserDto) :
    Except ServiceError UserEntity × List StoredUser :=
  match store.find? (fun u => u.email == dto.email) with
  | some _ => (.error (.conflict "Email already exists"), store)
  | none =>
    let entity : UserEntity :=
      { id := genId
        fullName := dto.fullName
        email := dto.email
        password := some dto.password
        phoneNumber := dto.phoneNumber
        role := dto.role.getD Role.customer
        isActive := true
        createdAt := now
        updatedAt := now }
    let saved := hashPasswordBeforeInsert hashFn entity
    let row : StoredUser :=
      { id := saved.id
        fullName := saved.fullName
        email := saved.email
        password := saved.password.getD ""
        phoneNumber := saved.phoneNumber
        role := saved.role
        isActive := saved.isActive
        createdAt := saved.createdAt
        updatedAt := saved.updatedAt }
    (.ok saved, store ++ [row])

/-- `UsersService.findOne(id)`: `findOne({where: {id}})` with the default
projection; `NotFoundException` when absent. -/
def UsersService.findOne (store : List StoredUser) (id : String) :
    Except ServiceError UserEntity :=
  match store.find? (fun u => u.id == id) with
  | some u => .ok (loadDefault u)
  | none => .error (.notFound ("User with ID " ++ id ++ " not found"))

/-- `Object.assign(user, updateUserDto)`: copy every property the caller
sent onto the loaded entity; absent properties leave the entity field as it
was. -/
def objectAssign (u : UserEntity) (dto : UpdateUserDto) : UserEntity :=
  { u with
    fullName := dto.fullName.getD u.fullName
    email := dto.email.getD u.email
    password := match dto.password with | some p => some p | none => u.password
    phoneNumber := match dto.phoneNumber with | some p => some p | none => u.phoneNumber
    role := dto.role.getD u.role
    isActive := dto.isActive.getD u.isActive }

/-- The row produced by `repository.save` on an entity loaded from row
`old`: every column takes the entity's value, except that a column whose
entity property is undefined (`password = none` after a default load) keeps
its stored value; TypeORM refreshes `updatedAt` (`@UpdateDateColumn`) and
never rewrites `createdAt` (`@CreateDateColumn`). No lifecycle hook runs:
the entity declares only `@BeforeInsert()`. TypeORM's save diffs against
the stored row and UPDATEs only the changed columns, so the unique email
index (`@Column({unique: true})`) is hit only when the email column
actually changes; that failure path is modelled at the one call site where
it can occur, `UsersService.update` (`UsersService.remove` never changes
the email). -/
def saveUpdate (now : Nat) (old : StoredUser) (u : UserEntity) : StoredUser :=
  { id := old.id
    fullName := u.fullName
    email := u.email
    password := u.password.getD old.password
    phoneNumber := u.phoneNumber
    role := u.role
    isActive := u.isActive
    createdAt := old.createdAt
    updatedAt := now }

/-- `UsersService.update(id, updateUserDto)`: load the user (`NotFound` when
absent); when the sent `email` is truthy and differs from the current one,
throw `ConflictException` if any row holds that email; otherwise
`Object.assign` the DTO onto the entity and save. The save UPDATEs the
changed columns: when the merged email differs from the stored one and
another row (different primary key) already holds it, the unique email
index rejects the write and the driver's `QueryFailedError` propagates,
leaving the table unchanged. Returns the result together with the
resulting table contents. -/
def UsersService.update (store : List StoredUser) (id : String)
    (dto : UpdateUserDto) (now : Nat) :
    Except ServiceError UserEntity × List StoredUser :=
  match store.find? (fun u => u.id == id) with
  | none => (.error (.notFound ("User with ID " ++ id ++ " not found")), store)
  | some old =>
    let user := loadDefault old
    let emailConflict : Bool :=
      match dto.email with
      | some e => e != "" && e != user.email && store.any (fun v => v.email == e)
      | none => false
    if emailConflict then (.error (.conflict "Email already exists"), store)
    else
      let merged := objectAssign user dto
      if merged.email != old.email
          && store.any (fun v => v.id != id && v.email == merged.email) then
        (.error (.queryFailed "duplicate key value violates unique constraint"),
          store)
      else
        let row := saveUpdate now old merged
        (.ok { merged with updatedAt := now },
          store.map (fun v => if v.id == id then row else v))

/-- `UsersService.remove(id)` (soft delete): load the user (`NotFound` when
absent), set `isActive = false`, save, and return the confirmation message
built from the user's email. -/
def UsersService.remove (store : List StoredUser) (id : String) (now : Nat) :
    Except ServiceError String × List StoredUser :=
  match store.find? (fun u => u.id == id) with
  | none => (.error (.notFound ("User with ID " ++ id ++ " not found")), store)
  | some old =>
    let user := { loadDefault old with isActive := false }
    let row := saveUpdate now old user
    (.ok ("User " ++ old.email ++ " has been deactivated"),
      store.map (fun v => if v.id == id then row else v))

/-! ### Password strength rule (`CreateUserDto.password`)

The DTO declares `@IsNotEmpty()`, `@MinLength(8)` and
`@Matches(/^(?=.*[a-z])(?=.*[A-Z])(?=.*\d)(?=.*[@$!%*?&])[A-Za-z\d@$!%*?&]/)`.
The regular expression is anchored at the start of the string; each
lookahead `(?=.*X)` demands a character of class `X` at some position none
of whose predecessors is a line terminator (without flags, `.` matches any
character except the ECMAScript line terminators LF, CR, U+2028, U+2029);
the final character class constrains only the first character, because the
pattern has no repetition and no end anchor after it. -/

/-- The ECMAScript line terminators, which `.` never matches:
LF, CR, U+2028 (line separator), U+2029 (paragraph separator). -/
def isLineTerminator (c : Char) : Bool :=
  c == '\n' || c == '\r' || c == '\u2028' || c == '\u2029'

/-- The symbol set `[@$!%*?&]` of the password pattern. -/
def specialChars : List Char := ['@', '$', '!', '%', '*', '?', '&']

/-- The character class `[A-Za-z\d@$!%*?&]`. -/
def inPasswordCharClass (c : Char) : Bool :=
  c.isAlpha || c.isDigit || specialChars.contains c

/-- `(?=.*X)` anchored at the current position: some character satisfying
`p` occurs, with no line terminator before it. -/
def dotStarContains (p : Char → Bool) : List Char → Bool
  | [] => false
  | c :: rest => p c || (!isLineTerminator c && dotStarContains p rest)

/-- Whether `regex.test(s)` succeeds for the DTO's `@Matches` pattern. -/
def matchesPasswordRegex (s : String) : Bool :=
  match s.toList with
  | [] => false
  | c :: _ =>
    inPasswordCharClass c
      && dotStarContains Char.isLower s.toList
      && dotStarContains Char.isUpper s.toList
      && dotStarContains Char.isDigit s.toList
      && dotStarContains (fun d => specialChars.contains d) s.toList

/-- The failed-constraint messages class-validator reports for the
`password` field of `CreateUserDto` (the `ValidationError` enumerates each
failed rule). -/
def passwordFailedRules (s : String) : List String :=
  (if s.length = 0 then ["password should not be empty"] else [])
    ++ (if s.length < 8 then ["Password must be at least 8 characters"] else [])
    ++ (if matchesPasswordRegex s then []
        else ["Password must contain uppercase, lowercase, number and special character"])

/-- A password passes the `CreateUserDto` validators iff no constraint
fails. -/
def passwordAccepted (s : String) : Bool :=
  passwordFailedRules s = []

/-- The password strength rule as the spec words it (for comparison with
`passwordAccepted`): at least 8 characters, containing at least one
lowercase letter, one uppercase letter, one digit, and one symbol from the
punctuation set. -/
def specPasswordStrength (s : String) : Bool :=
  8 ≤ s.length
    && s.toList.any Char.isLower
    && s.toList.any Char.isUpper
    && s.toList.any Char.isDigit
    && s.toList.any (fun d => specialChars.contains d)

/-- Declarative reading of `dotStarContains`: the list has an element
satisfying `p` preceded by no line terminator. -/
inductive FoundBeforeTerminator (p : Char → Bool) : List Char → Prop
  | head {c : Char} {cs : List Char} :
      p c = true → FoundBeforeTerminator p (c :: cs)
  | tail {c : Char} {cs : List Char} :
      isLineTerminator c = false → FoundBeforeTerminator p cs →
      FoundBeforeTerminator p (c :: cs)

/-! ### Token validation (`JwtStrategy`)

`JwtStrategy` configures passport-jwt with
`ignoreExpiration: false` and `secretOrKey` from config, and its
`validate(payload)` returns `{id: payload.sub, email: payload.email,
role: payload.role}`. The library pipeline (structural parse of
`header.payload.signature`, HMAC signature check with the configured
secret, expiration check) runs before `validate`; the HMAC with the secret
applied is abstracted as a function parameter `mac`. Nothing in the
strategy touches the user store. -/

/-- A decoded JWT payload: the registered fields the code uses (`sub`,
`email`, `role`, `exp`, `iat`) plus any other embedded fields. -/
structure JwtPayload where
  sub : String
  email : String
  role : String
  iat : Nat
  exp : Nat
  extra : List (String × String)
deriving DecidableEq, Repr

/-- A presented bearer token: whether its three-part structure parses, the
payload it decodes to, and the signature it carries. -/
structure Token where
  wellFormed : Bool
  payload : JwtPayload
  signature : Nat
deriving DecidableEq, Repr

/-- What `JwtStrategy.validate` returns (becomes `req.user`). -/
structure AuthClaim where
  id : String
  email : String
  role : String
deriving DecidableEq, Repr

/-- The options object passed to `super()` in `JwtStrategy`'s constructor
(the extractor and secret are handled outside this model). -/
structure JwtStrategyOptions where
  ignoreExpiration : Bool
deriving DecidableEq, Repr

/-- `JwtStrategy` passes `ignoreExpiration: false`. -/
def JwtStrategy.options : JwtStrategyOptions :=
  { ignoreExpiration := false }

/-- `JwtStrategy.validate(payload)`: return
`{id: payload.sub, email: payload.email, role: payload.role}`. -/
def JwtStrategy.validate (p : JwtPayload) : AuthClaim :=
  { id := p.sub, email := p.email, role := p.role }

/-- The passport-jwt pipeline around `validate` (library semantics, outside
the repository's own code): reject a structurally malformed token, a token
whose signature is not the MAC of its payload under the configured secret,
and — unless `ignoreExpiration` — a token whose `exp` is not in the future;
otherwise hand the payload to the strategy's `validate`. -/
def passportJwtAuthenticate (opts : JwtStrategyOptions)
    (mac : JwtPayload → Nat) (now : Nat) (t : Token) : Option AuthClaim :=
  if t.wellFormed
      && t.signature == mac t.payload
      && (opts.ignoreExpiration || now < t.payload.exp) then
    some (JwtStrategy.validate t.payload)
  else
    none

/-- The deployed validator: the pipeline with `JwtStrategy`'s options. -/
def jwtAuthenticate (mac : JwtPayload → Nat) (now : Nat) (t : Token) :
    Option AuthClaim :=
  passportJwtAuthenticate JwtStrategy.options mac now t

/-! ### Concrete fixtures used by closed theorems and witnesses -/

/-- Whether a service call returned a success value. -/
def isOkResult {α : Type} : Except ServiceError α → Bool
  | .ok _ => true
  | .error _ => false

/-- A persisted account whose password column holds a prior bcrypt digest. -/
def rowAlpha : StoredUser :=
  { id := "u1"
    fullName := "Alpha Code"
    email := "alpha@code.com"
    password := "$2b$10$priorStoredDigest"
    phoneNumber := none
    role := Role.customer
    isActive := true
    createdAt := 0
    updatedAt := 0 }

/-- A second persisted account whose email column holds the empty string
(reachable through `UsersService.update` with `{email: ""}`). -/
def rowEmptyEmail : StoredUser :=
  { id := "u2"
    fullName := "Beta Code"
    email := ""
    password := "$2b$10$otherStoredDigest"
    phoneNumber := none
    role := Role.customer
    isActive := true
    createdAt := 0
    updatedAt := 0 }

/-- A third persisted account with a distinct ordinary email. -/
def rowGamma : StoredUser :=
  { id := "u3"
    fullName := "Gamma Code"
    email := "gamma@code.com"
    password := "$2b$10$thirdStoredDigest"
    phoneNumber := none
    role := Role.customer
    isActive := true
    createdAt := 0
    updatedAt := 0 }

/-- A soft-deleted persisted account (`isActive = false`). -/
def rowInactiveUser : StoredUser :=
  { id := "u4"
    fullName := "Delta Code"
    email := "delta@code.com"
    password := "$2b$10$fourthStoredDigest"
    phoneNumber := some "+233123456789"
    role := Role.driver
    isActive := false
    createdAt := 0
    updatedAt := 0 }

/-- The row `UsersService.create` persists on success (spelled out for the
statements below): the DTO fields with the column defaults, the password
column holding the `@BeforeInsert()` digest. -/
def createdRow (hashFn : String → String) (genId : String) (now : Nat)
    (dto : CreateUserDto) : StoredUser :=
  { id := genId
    fullName := dto.fullName
    email := dto.email
    password := if dto.password = "" then dto.password else hashFn dto.password
    phoneNumber := dto.phoneNumber
    role := dto.role.getD Role.customer
    isActive := true
    createdAt := now
    updatedAt := now }

/-- The row `UsersService.remove` persists: the old row with
`isActive = false` and a refreshed `updatedAt`. -/
def deactivatedRow (now : Nat) (old : StoredUser) : StoredUser :=
  { old with isActive := false, updatedAt := now }

/-! ## Theorems -/

/-- Helper: replacing (by id) the row that `find?` located leaves the
replacement as the row `find?` locates afterwards. -/
theorem find?_map_replaceById (store : List StoredUser) (id : String)
    (row old : StoredUser) (h : store.find? (fun u => u.id == id) = some old)
    (hid : row.id = old.id) :
    (store.map (fun v => if v.id == id then row else v)).find?
        (fun u => u.id == id) = some row := by
  induction store with
  | nil => simp at h
  | cons v rest ih =>
    cases hv : (v.id == id) with
    | false =>
      simp only [List.find?_cons, hv] at h
      simp only [List.map_cons, List.find?_cons, hv, Bool.false_eq_true, if_false]
      exact ih h
    | true =>
      simp only [List.find?_cons, hv] at h
      injection h with h
      subst h
      have hrow : (row.id == id) = true := by rw [hid]; exact hv
      simp only [List.map_cons, hv, if_true, List.find?_cons, hrow]

/-- Helper: the executable lookahead matcher agrees with its declarative
reading. -/
theorem dotStarContains_iff (p : Char → Bool) (l : List Char) :
    dotStarContains p l = true ↔ FoundBeforeTerminator p l := by
  induction l with
  | nil =>
    constructor
    · intro h
      simp [dotStarContains] at h
    · intro h
      cases h
  | cons c cs ih =>
    simp only [dotStarContains, Bool.or_eq_true, Bool.and_eq_true,
      Bool.not_eq_true']
    constructor
    · rintro (hc | ⟨hnl, hrest⟩)
      · exact FoundBeforeTerminator.head hc
      · exact FoundBeforeTerminator.tail hnl (ih.mp hrest)
    · intro h
      cases h with
      | head hc => exact Or.inl hc
      | tail hnl hrest => exact Or.inr ⟨hnl, ih.mpr hrest⟩

/-- Helper: closed form of `UsersService.remove` on a found account. -/
theorem remove_spec (store : List StoredUser) (id : String) (now : Nat)
    (old : StoredUser) (h : store.find? (fun u => u.id == id) = some old) :
    UsersService.remove store id now
      = (.ok ("User " ++ old.email ++ " has been deactivated"),
         store.map (fun v => if v.id == id then deactivatedRow now old else v)) := by
  obtain ⟨oid, ofn, oe, opw, oph, orl, oia, oca, oua⟩ := old
  simp [UsersService.remove, h, saveUpdate, loadDefault, deactivatedRow]

/-- C1: the spec says an update whose partial input includes a password
stores a re-hashed digest, never the plaintext. The entity declares only a
`@BeforeInsert()` hook and no `@BeforeUpdate()` hook (although the service
and DTO comments claim one runs), so `UsersService.update` persists the
plaintext password verbatim: after updating `rowAlpha` with password
`"NewP@ss123"`, the stored password column is exactly that plaintext. -/
theorem update_password_stores_plaintext :
    ((UsersService.update [rowAlpha] "u1" { password := some "NewP@ss123" } 5).2.find?
        (fun u => u.id == "u1")).map (fun u => u.password) = some "NewP@ss123"
      ∧ rowAlpha.password ≠ "NewP@ss123" := by
  exact ⟨rfl, by decide⟩

/-- C2: the spec says `createAccount` returns the created account without
the password hash, and the method's own doc comment claims the password is
excluded by `select: false`; but `repository.save` returns the entity
object itself, whose `password` property holds the bcrypt digest, so the
value returned to the caller does contain it. -/
theorem create_returns_password_property (hashFn : String → String) :
    ∃ u, (UsersService.create hashFn "u9" 4 []
        { fullName := "Alpha Code", email := "alpha@code.com",
          password := "MyP@ssw0rd" }).1 = .ok u
      ∧ u.password = some (hashFn "MyP@ssw0rd") := by
  exact ⟨_, rfl, rfl⟩

/-- Witness for C2 at a concrete hashing function. -/
theorem create_returns_password_property_witness :
    ∃ u, (UsersService.create (fun p => "$2b$10$" ++ p) "u9" 4 []
        { fullName := "Alpha Code", email := "alpha@code.com",
          password := "MyP@ssw0rd" }).1 = .ok u
      ∧ u.password = some "$2b$10$MyP@ssw0rd" :=
  create_returns_password_property (fun p => "$2b$10$" ++ p)

/-- C3: `UsersService.create` with the email of an existing account fails
with `ConflictException("Email already exists")` and leaves the table
unchanged; with an email no account holds, it succeeds and appends exactly
one new row holding that email. -/
theorem create_email_conflict_or_success (hashFn : String → String)
    (genId : String) (now : Nat) (store : List StoredUser)
    (dto : CreateUserDto) :
    ((∃ u ∈ store, u.email = dto.email) →
      (UsersService.create hashFn genId now store dto).1
          = .error (.conflict "Email already exists")
        ∧ (UsersService.create hashFn genId now store dto).2 = store)
    ∧ ((∀ u ∈ store, u.email ≠ dto.email) →
      ∃ row, isOkResult (UsersService.create hashFn genId now store dto).1 = true
        ∧ (UsersService.create hashFn genId now store dto).2 = store ++ [row]
        ∧ row.email = dto.email) := by
  constructor
  · rintro ⟨u, hu, hue⟩
    cases hfind : store.find? (fun v => v.email == dto.email) with
    | none =>
      rw [List.find?_eq_none] at hfind
      exact absurd (show (u.email == dto.email) = true by
        simpa [beq_iff_eq] using hue) (by simpa using hfind u hu)
    | some w =>
      constructor <;> simp [UsersService.create, hfind]
  · intro hall
    have hfind : store.find? (fun v => v.email == dto.email) = none := by
      rw [List.find?_eq_none]
      intro v hv
      simpa [beq_iff_eq] using hall v hv
    refine ⟨createdRow hashFn genId now dto, ?_, ?_, rfl⟩
    · simp [UsersService.create, hfind, isOkResult]
    · by_cases hp : dto.password = "" <;>
        simp [UsersService.create, createdRow, hfind, hashPasswordBeforeInsert, hp]

/-- Witness for C3: a duplicate email is rejected with the table unchanged,
and a fresh email is persisted. -/
theorem create_email_conflict_or_success_witness :
    ((UsersService.create (fun p => "$2b$10$" ++ p) "u9" 4 [rowAlpha]
        { fullName := "Beta Code", email := "alpha@code.com",
          password := "MyP@ssw0rd" }).1
        = .error (.conflict "Email already exists")
      ∧ (UsersService.create (fun p => "$2b$10$" ++ p) "u9" 4 [rowAlpha]
        { fullName := "Beta Code", email := "alpha@code.com",
          password := "MyP@ssw0rd" }).2 = [rowAlpha])
    ∧ ∃ row, isOkResult (UsersService.create (fun p => "$2b$10$" ++ p) "u9" 4
        [rowAlpha]
        { fullName := "Beta Code", email := "beta@code.com",
          password := "MyP@ssw0rd" }).1 = true
      ∧ (UsersService.create (fun p => "$2b$10$" ++ p) "u9" 4 [rowAlpha]
        { fullName := "Beta Code", email := "beta@code.com",
          password := "MyP@ssw0rd" }).2 = [rowAlpha] ++ [row]
      ∧ row.email = "beta@code.com" :=
  ⟨(create_email_conflict_or_success (fun p => "$2b$10$" ++ p) "u9" 4 [rowAlpha]
      { fullName := "Beta Code", email := "alpha@code.com",
        password := "MyP@ssw0rd" }).1
    ⟨rowAlpha, by simp, rfl⟩,
   (create_email_conflict_or_success (fun p => "$2b$10$" ++ p) "u9" 4 [rowAlpha]
      { fullName := "Beta Code", email := "beta@code.com",
        password := "MyP@ssw0rd" }).2
    (by intro u hu; simp at hu; subst hu; decide)⟩

/-- C4: updating an existing account with a partial input containing only
`phoneNumber` replaces its row by one differing only in `phoneNumber` and
`updatedAt` — every other column, including the password digest, is kept
byte-identical — and returns the default projection of the result. -/
theorem update_phoneNumber_frame (store : List StoredUser) (id pn : String)
    (now : Nat) (old : StoredUser)
    (h : store.find? (fun u => u.id == id) = some old) :
    (UsersService.update store id { phoneNumber := some pn } now).1
        = .ok { loadDefault old with phoneNumber := some pn, updatedAt := now }
      ∧ (UsersService.update store id { phoneNumber := some pn } now).2
        = store.map (fun v => if v.id == id then
            { old with phoneNumber := some pn, updatedAt := now } else v) := by
  obtain ⟨oid, ofn, oe, opw, oph, orl, oia, oca, oua⟩ := old
  constructor <;>
    simp [UsersService.update, h, objectAssign, loadDefault, saveUpdate]

/-- Witness for C4 at a concrete store and phone number. -/
theorem update_phoneNumber_frame_witness :
    (UsersService.update [rowAlpha] "u1"
        { phoneNumber := some "+233999999999" } 5).1
        = .ok { loadDefault rowAlpha with
                  phoneNumber := some "+233999999999"
                  updatedAt := 5 }
      ∧ (UsersService.update [rowAlpha] "u1"
        { phoneNumber := some "+233999999999" } 5).2
        = [rowAlpha].map (fun v => if v.id == "u1" then
            { rowAlpha with phoneNumber := some "+233999999999", updatedAt := 5 }
          else v) :=
  update_phoneNumber_frame [rowAlpha] "u1" "+233999999999" 5 rowAlpha (by decide)

/-- C6: `UsersService.remove` on an existing account returns the
confirmation built from the account's email, leaves the row present with
`isActive = false`, and a second call on the same id succeeds with the very
same confirmation, `isActive` remaining `false`. -/
theorem remove_idempotent (store : List StoredUser) (id : String)
    (now1 now2 : Nat) (old : StoredUser)
    (h : store.find? (fun u => u.id == id) = some old) :
    (UsersService.remove store id now1).1
        = .ok ("User " ++ old.email ++ " has been deactivated")
      ∧ ((UsersService.remove store id now1).2.find? (fun u => u.id == id)).map
          (fun u => u.isActive) = some false
      ∧ (UsersService.remove (UsersService.remove store id now1).2 id now2).1
        = (UsersService.remove store id now1).1
      ∧ ((UsersService.remove (UsersService.remove store id now1).2 id
          now2).2.find? (fun u => u.id == id)).map (fun u => u.isActive)
        = some false := by
  have hs1 := remove_spec store id now1 old h
  have hrow1 := find?_map_replaceById store id (deactivatedRow now1 old) old h rfl
  have hfind1 : (UsersService.remove store id now1).2.find?
      (fun u => u.id == id) = some (deactivatedRow now1 old) := by
    rw [hs1]
    exact hrow1
  have hs2 := remove_spec (UsersService.remove store id now1).2 id now2
    (deactivatedRow now1 old) hfind1
  have hrow2 := find?_map_replaceById (UsersService.remove store id now1).2 id
    (deactivatedRow now2 (deactivatedRow now1 old)) (deactivatedRow now1 old)
    hfind1 rfl
  refine ⟨?_, ?_, ?_, ?_⟩
  · rw [hs1]
  · simp only [hs1]
    rw [hrow1]
    rfl
  · rw [hs2, hs1]
    rfl
  · simp only [hs2]
    rw [hrow2]
    rfl

/-- Witness for C6 at a concrete store. -/
theorem remove_idempotent_witness :
    (UsersService.remove [rowAlpha] "u1" 3).1
        = .ok ("User " ++ rowAlpha.email ++ " has been deactivated")
      ∧ ((UsersService.remove [rowAlpha] "u1" 3).2.find?
          (fun u => u.id == "u1")).map (fun u => u.isActive) = some false
      ∧ (UsersService.remove (UsersService.remove [rowAlpha] "u1" 3).2 "u1"
          7).1 = (UsersService.remove [rowAlpha] "u1" 3).1
      ∧ ((UsersService.remove (UsersService.remove [rowAlpha] "u1" 3).2 "u1"
          7).2.find? (fun u => u.id == "u1")).map (fun u => u.isActive)
        = some false :=
  remove_idempotent [rowAlpha] "u1" 3 7 rowAlpha (by decide)

/-- C9: `UsersService.findOne` returns the account's default projection —
which never carries the password column and keeps `isActive` as stored, so
soft-deleted accounts are returned too — exactly when a row with the id
exists, and fails with `NotFoundException` exactly when none does. -/
theorem findOne_contract (store : List StoredUser) (id : String) :
    (∀ u, store.find? (fun v => v.id == id) = some u →
        UsersService.findOne store id = .ok (loadDefault u)
          ∧ (loadDefault u).password = none
          ∧ (loadDefault u).isActive = u.isActive)
      ∧ (store.find? (fun v => v.id == id) = none →
        UsersService.findOne store id
          = .error (.notFound ("User with ID " ++ id ++ " not found")))
      ∧ (store.find? (fun v => v.id == id) = none ↔ ∀ u ∈ store, u.id ≠ id) := by
  refine ⟨?_, ?_, ?_⟩
  · intro u hu
    exact ⟨by simp [UsersService.findOne, hu], rfl, rfl⟩
  · intro hn
    simp [UsersService.findOne, hn]
  · rw [List.find?_eq_none]
    simp

/-- Witness for C9: a soft-deleted account is returned without the password
column; an unknown id yields the not-found error. -/
theorem findOne_contract_witness :
    (UsersService.findOne [rowInactiveUser] "u4" = .ok (loadDefault rowInactiveUser)
        ∧ (loadDefault rowInactiveUser).password = none
        ∧ (loadDefault rowInactiveUser).isActive = rowInactiveUser.isActive)
      ∧ UsersService.findOne [rowInactiveUser] "zz"
        = .error (.notFound ("User with ID " ++ "zz" ++ " not found")) :=
  ⟨(findOne_contract [rowInactiveUser] "u4").1 rowInactiveUser (by decide),
   (findOne_contract [rowInactiveUser] "zz").2.1 (by decide)⟩

/-- Helper: closed form of `UsersService.update` on a found account: the
service's truthiness-guarded conflict check, then the unique-email-index
check of the save (it fires only when the merged email differs from the
stored one and another row holds it), then the persisted merge. -/
theorem update_spec (store : List StoredUser) (id : String)
    (dto : UpdateUserDto) (now : Nat) (old : StoredUser)
    (h : store.find? (fun u => u.id == id) = some old) :
    UsersService.update store id dto now
      = (if (match dto.email with
            | some e => e != "" && e != (loadDefault old).email
                && store.any (fun v => v.email == e)
            | none => false) = true
        then (.error (.conflict "Email already exists"), store)
        else if ((objectAssign (loadDefault old) dto).email != old.email
            && store.any (fun v => v.id != id
              && v.email == (objectAssign (loadDefault old) dto).email)) = true
        then (.error (.queryFailed "duplicate key value violates unique constraint"),
          store)
        else (.ok { objectAssign (loadDefault old) dto with updatedAt := now },
          store.map (fun v => if v.id == id then
            saveUpdate now old (objectAssign (loadDefault old) dto) else v))) := by
  simp only [UsersService.update, h]

/-- C5 counterexample: with a second account holding the empty-string
email, updating the first account to the present-but-falsy email `""` —
which differs from its current email while another account holds it — does
not fail with the claimed `ConflictError`: the truthiness guard skips the
service's uniqueness check, and the save fails on the unique email index
with a `QueryFailedError`, a different error kind. -/
theorem update_email_conflict_claim_cex :
    rowEmptyEmail.email = "" ∧ rowAlpha.email ≠ ""
      ∧ rowEmptyEmail.id ≠ rowAlpha.id
      ∧ (UsersService.update [rowAlpha, rowEmptyEmail] "u1"
          { email := some "" } 5).1
        = .error (.queryFailed "duplicate key value violates unique constraint")
      ∧ ServiceError.queryFailed "duplicate key value violates unique constraint"
        ≠ ServiceError.conflict "Email already exists" :=
  ⟨rfl, by decide, by decide, rfl, by decide⟩

/-- C5 amended: for an update whose partial input contains a NON-EMPTY
email, `UsersService.update` fails with `ConflictException` exactly when
that email differs from the account's current one and some (necessarily
other) account holds it; when it equals the current email the update
proceeds without a conflict. -/
theorem update_email_uniqueness_nonempty (store : List StoredUser)
    (id : String) (dto : UpdateUserDto) (now : Nat) (old : StoredUser)
    (e : String) (h : store.find? (fun u => u.id == id) = some old)
    (he : dto.email = some e) (hne : e ≠ "") :
    ((UsersService.update store id dto now).1
        = .error (.conflict "Email already exists")
      ↔ e ≠ old.email ∧ ∃ v ∈ store, v.email = e)
    ∧ (e = old.email →
        isOkResult (UsersService.update store id dto now).1 = true) := by
  have hspec := update_spec store id dto now old h
  simp only [he] at hspec
  have hle : (loadDefault old).email = old.email := rfl
  have hme : (objectAssign (loadDefault old) dto).email = e := by
    simp [objectAssign, he]
  rw [hle, hme] at hspec
  constructor
  · rw [hspec]
    by_cases hg : (e != "" && e != old.email
        && store.any (fun v => v.email == e)) = true
    · rw [if_pos hg]
      simp only [Bool.and_eq_true, bne_iff_ne, List.any_eq_true, beq_iff_eq]
        at hg
      exact iff_of_true rfl ⟨hg.1.2, hg.2⟩
    · rw [if_neg hg]
      refine iff_of_false ?_ ?_
      · intro hx
        split at hx <;> simp at hx
      · rintro ⟨h1, h2⟩
        simp only [Bool.and_eq_true, bne_iff_ne, List.any_eq_true, beq_iff_eq]
          at hg
        exact hg ⟨⟨hne, h1⟩, h2⟩
  · intro heq
    subst heq
    rw [hspec]
    rw [if_neg (by simp)]
    rw [if_neg (by simp)]
    rfl

/-- Witness for C5 amended: updating to another account's non-empty email
raises the conflict; updating to the account's own email proceeds. -/
theorem update_email_uniqueness_nonempty_witness :
    (UsersService.update [rowAlpha, rowGamma] "u1"
        { email := some "gamma@code.com" } 5).1
      = .error (.conflict "Email already exists")
    ∧ isOkResult (UsersService.update [rowAlpha, rowGamma] "u1"
        { email := some "alpha@code.com" } 5).1 = true :=
  ⟨(update_email_uniqueness_nonempty [rowAlpha, rowGamma] "u1"
      { email := some "gamma@code.com" } 5 rowAlpha "gamma@code.com"
      (by decide) rfl (by decide)).1.mpr
    ⟨by decide, rowGamma, by simp, rfl⟩,
   (update_email_uniqueness_nonempty [rowAlpha, rowGamma] "u1"
      { email := some "alpha@code.com" } 5 rowAlpha "alpha@code.com"
      (by decide) rfl (by decide)).2 rfl⟩

/-- C10 counterexample: the claim says the falsy-email update still
overwrites the stored email on every store; but in a store where another
account holds `""` the save hits the unique email index: the update fails
(no success result) and the table — in particular the target's email — is
left unchanged. -/
theorem update_falsy_email_overwrite_claim_cex :
    rowEmptyEmail.email = "" ∧ rowAlpha.email ≠ ""
      ∧ rowEmptyEmail.id ≠ rowAlpha.id
      ∧ isOkResult (UsersService.update [rowAlpha, rowEmptyEmail] "u1"
          { email := some "" } 5).1 = false
      ∧ (UsersService.update [rowAlpha, rowEmptyEmail] "u1"
          { email := some "" } 5).2 = [rowAlpha, rowEmptyEmail] :=
  ⟨rfl, by decide, by decide, rfl, rfl⟩

/-- C10 amended: on an update whose partial input carries the falsy email
`""`, `UsersService.update` performs no service-level uniqueness check —
the truthiness guard treats falsy emails as absent, so no `ConflictError`
is ever raised — and the field merge copies `""` onto the entity: when the
account's email is already `""` or no other account holds `""`, the stored
email is overwritten with `""`; when another account holds `""`, the save
fails on the store's unique email index with a `QueryFailedError` and the
table is unchanged. -/
theorem update_falsy_email_behavior (store : List StoredUser) (id : String)
    (dto : UpdateUserDto) (now : Nat) (old : StoredUser)
    (h : store.find? (fun u => u.id == id) = some old)
    (he : dto.email = some "") :
    (UsersService.update store id dto now).1
        ≠ .error (.conflict "Email already exists")
      ∧ ((old.email = ""
            ∨ store.any (fun v => v.id != id && v.email == "") = false) →
          isOkResult (UsersService.update store id dto now).1 = true
            ∧ ((UsersService.update store id dto now).2.find?
                (fun u => u.id == id)).map (fun u => u.email) = some "")
      ∧ (old.email ≠ "" →
          store.any (fun v => v.id != id && v.email == "") = true →
          (UsersService.update store id dto now).1
              = .error (.queryFailed
                  "duplicate key value violates unique constraint")
            ∧ (UsersService.update store id dto now).2 = store) := by
  have hspec := update_spec store id dto now old h
  simp only [he] at hspec
  have hme : (objectAssign (loadDefault old) dto).email = "" := by
    simp [objectAssign, he]
  rw [hme] at hspec
  rw [if_neg (by simp)] at hspec
  refine ⟨?_, ?_, ?_⟩
  · intro hx
    rw [hspec] at hx
    split at hx <;> simp at hx
  · intro hcase
    have hcond : ¬ (("" != old.email
        && store.any (fun v => v.id != id && v.email == "")) = true) := by
      rcases hcase with hold | hany
      · rw [hold]
        simp
      · rw [hany]
        simp
    rw [hspec, if_neg hcond]
    refine ⟨rfl, ?_⟩
    have hrow := find?_map_replaceById store id
      (saveUpdate now old (objectAssign (loadDefault old) dto)) old h rfl
    have hrowe : (saveUpdate now old (objectAssign (loadDefault old) dto)).email
        = "" := hme
    show ((store.map (fun v => if v.id == id then
        saveUpdate now old (objectAssign (loadDefault old) dto) else v)).find?
        (fun u => u.id == id)).map (fun u => u.email) = some ""
    rw [hrow]
    simp [hrowe]
  · intro hnold hany
    have hcondT : (("" != old.email
        && store.any (fun v => v.id != id && v.email == "")) = true) := by
      rw [hany]
      have hne2 : ("" : String) ≠ old.email := fun hc => hnold hc.symm
      simp [hne2]
    rw [hspec, if_pos hcondT]
    exact ⟨rfl, rfl⟩

/-- Witness for C10: the unique-index error branch at a store where another
account holds `""`, and the overwrite branch at a store where none does. -/
theorem update_falsy_email_behavior_witness :
    ((UsersService.update [rowAlpha, rowEmptyEmail] "u1"
          { email := some "" } 5).1
        = .error (.queryFailed "duplicate key value violates unique constraint")
      ∧ (UsersService.update [rowAlpha, rowEmptyEmail] "u1"
          { email := some "" } 5).2 = [rowAlpha, rowEmptyEmail])
      ∧ isOkResult (UsersService.update [rowAlpha] "u1"
          { email := some "" } 5).1 = true
      ∧ ((UsersService.update [rowAlpha] "u1"
          { email := some "" } 5).2.find? (fun u => u.id == "u1")).map
          (fun u => u.email) = some "" :=
  ⟨(update_falsy_email_behavior [rowAlpha, rowEmptyEmail] "u1"
      { email := some "" } 5 rowAlpha (by decide) rfl).2.2 (by decide)
      (by decide),
   (update_falsy_email_behavior [rowAlpha] "u1"
      { email := some "" } 5 rowAlpha (by decide) rfl).2.1
      (Or.inr (by decide))⟩

/-- C7: the deployed token validator accepts a token exactly when it is
structurally well-formed, its signature is the configured MAC of its
payload, and its `exp` lies in the future; every acceptance yields exactly
the claim `{id (the subject id), email, role}` read off the payload,
ignoring every other embedded field; the validator takes no account store
at all. -/
theorem jwt_validator_contract (mac : JwtPayload → Nat) (now : Nat)
    (t : Token) :
    (∀ c, jwtAuthenticate mac now t = some c →
        t.wellFormed = true ∧ t.signature = mac t.payload
          ∧ now < t.payload.exp
          ∧ c = { id := t.payload.sub, email := t.payload.email,
                  role := t.payload.role })
      ∧ (t.wellFormed = true → t.signature = mac t.payload →
          now < t.payload.exp →
        jwtAuthenticate mac now t
          = some { id := t.payload.sub, email := t.payload.email,
                   role := t.payload.role }) := by
  constructor
  · intro c hc
    simp only [jwtAuthenticate, passportJwtAuthenticate, JwtStrategy.options,
      JwtStrategy.validate, Bool.false_or] at hc
    split at hc
    next hcond =>
      injection hc with hc
      subst hc
      simp only [Bool.and_eq_true, beq_iff_eq, decide_eq_true_eq] at hcond
      exact ⟨hcond.1.1, hcond.1.2, hcond.2, rfl⟩
    next =>
      exact absurd hc (by simp)
  · intro hw hs he
    simp [jwtAuthenticate, passportJwtAuthenticate, JwtStrategy.options,
      JwtStrategy.validate, hw, hs, he]

/-- Witness for C7: a well-formed, correctly signed, unexpired token with
extra payload fields is accepted with exactly the three claim fields; the
same token presented after `exp` is rejected, as is one with a wrong
signature. -/
theorem jwt_validator_contract_witness :
    jwtAuthenticate (fun p => p.exp + p.iat) 3
        { wellFormed := true
          payload := { sub := "u1", email := "alpha@code.com",
                       role := "customer", iat := 1, exp := 9,
                       extra := [("scope", "all")] }
          signature := 10 }
      = some { id := "u1", email := "alpha@code.com", role := "customer" } :=
  (jwt_validator_contract (fun p => p.exp + p.iat) 3
      { wellFormed := true
        payload := { sub := "u1", email := "alpha@code.com",
                     role := "customer", iat := 1, exp := 9,
                     extra := [("scope", "all")] }
        signature := 10 }).2 rfl rfl (by decide)

/-- C8 counterexample: `"#aA1!bcd"` satisfies the claim's acceptance
condition (8 characters with a lowercase, an uppercase, a digit and a
symbol from the set), yet the DTO's anchored pattern rejects it because its
first character `#` is outside the pattern's character class. -/
theorem password_rule_first_char_cex :
    specPasswordStrength "#aA1!bcd" = true
      ∧ passwordAccepted "#aA1!bcd" = false := by
  decide

/-- C8 amended: the DTO accepts a password iff it has at least 8
characters, its FIRST character is a letter, digit or one of `@$!%*?&`,
and each of a lowercase letter, an uppercase letter, a digit, and a symbol
from that set occurs at a position preceded by no ECMAScript line
terminator (LF, CR, U+2028, U+2029); a violation is reported by
enumerating each failed rule. In particular `"password"` is rejected,
`"MyP@ssw0rd"` is accepted, and `"aA1bcde\r@"` — whose only symbol sits
after a carriage return — is rejected. -/
theorem password_rule_amended :
    (∀ s : String, passwordAccepted s = true ↔
        8 ≤ s.length
          ∧ (∃ c, s.toList.head? = some c ∧ inPasswordCharClass c = true)
          ∧ FoundBeforeTerminator Char.isLower s.toList
          ∧ FoundBeforeTerminator Char.isUpper s.toList
          ∧ FoundBeforeTerminator Char.isDigit s.toList
          ∧ FoundBeforeTerminator (fun d => specialChars.contains d) s.toList)
      ∧ passwordAccepted "MyP@ssw0rd" = true
      ∧ passwordAccepted "password" = false
      ∧ passwordAccepted "aA1bcde\r@" = false := by
  refine ⟨?_, by decide, by decide, by decide⟩
  intro s
  have key : passwordFailedRules s = [] ↔
      8 ≤ s.length ∧ matchesPasswordRegex s = true := by
    simp only [passwordFailedRules]
    by_cases h8 : s.length < 8
    · have h8' : ¬ 8 ≤ s.length := by omega
      simp [h8, h8']
    · have h8' : 8 ≤ s.length := by omega
      have h0 : ¬ s.length = 0 := by omega
      by_cases hm : matchesPasswordRegex s = true <;> simp [h8, h8', h0, hm]
  have key2 : matchesPasswordRegex s = true ↔
      (∃ c, s.toList.head? = some c ∧ inPasswordCharClass c = true)
        ∧ FoundBeforeTerminator Char.isLower s.toList
        ∧ FoundBeforeTerminator Char.isUpper s.toList
        ∧ FoundBeforeTerminator Char.isDigit s.toList
        ∧ FoundBeforeTerminator (fun d => specialChars.contains d) s.toList := by
    have hld : s.data = s.toList := rfl
    cases hl : s.toList with
    | nil =>
      rw [hl] at hld
      simp [matchesPasswordRegex, hld]
    | cons c rest =>
      rw [hl] at hld
      simp [matchesPasswordRegex, hld, Bool.and_eq_true, dotStarContains_iff,
        and_assoc]
  simp only [passwordAccepted, decide_eq_true_eq]
  rw [key, key2]

/-- Witness for C8: the amended rule applied to the spec's accepted
example. -/
theorem password_rule_amended_witness :
    passwordAccepted "MyP@ssw0rd" = true :=
  password_rule_amended.2.1
